import Mathlib

/-
Shallow embedding of the repository-health core of the `vitalis` repository:
  src/analyzer/services/package_info.py   (repository URL resolution)
  src/analyzer/services/repo_health.py    (GitHub / GitLab health evaluators)
  src/analyzer/utils/helpers.py           (ISO-8601 timestamp parsing)
  src/analyzer/models/schemas.py          (Policy, HealthCheckResult)

Python strings are modeled over `String`/`List Char` (the source only compares
ASCII data in the properties under study); the HTTP layer is modeled as an
explicit environment of upstream responses, and the wall clock as an explicit
microsecond count, so every evaluator is a pure function of its inputs.
-/

namespace Vitalis

/-! ### Python `str` primitives (models of the methods the source uses) -/

/-- Model of Python `s.startswith(pre)`: `listStarts pre cs` is true when
`pre` is an initial run of `cs`. -/
def listStarts : List Char → List Char → Bool
  | [], _ => true
  | _ :: _, [] => false
  | c :: cs, d :: ds => c == d && listStarts cs ds

/-- Model of Python `s.endswith(post)`. -/
def strEnds (s post : String) : Bool :=
  listStarts post.data.reverse s.data.reverse

/-- Model of Python `s.strip(c)` for a single strip character: removes every
leading and trailing occurrence of `c`. -/
def pyStripChar (c : Char) (cs : List Char) : List Char :=
  ((cs.dropWhile (· == c)).reverse.dropWhile (· == c)).reverse

/-- Model of Python `s.split(sep)` for a one-character separator: splits at
every occurrence, keeping empty pieces, and yields `[""]` on the empty
string. -/
def pySplitChar (sep : Char) : List Char → List (List Char)
  | [] => [[]]
  | c :: rest =>
    let r := pySplitChar sep rest
    if c == sep then [] :: r
    else
      match r with
      | h :: t => (c :: h) :: t
      | [] => [[c]]

/-- Worker for `pyReplace`; the fuel argument is an upper bound on the number
of characters still to be scanned (the pattern is assumed nonempty, as in the
single use `replace(".git", "")` of the source). -/
def replaceAllAux (pat new : List Char) : Nat → List Char → List Char
  | _, [] => []
  | 0, cs => cs
  | fuel + 1, c :: cs =>
    if listStarts pat (c :: cs) then new ++ replaceAllAux pat new fuel ((c :: cs).drop pat.length)
    else c :: replaceAllAux pat new fuel cs

/-- Model of Python `s.replace(pat, new)`: replaces every (non-overlapping,
left-to-right) occurrence of `pat`. -/
def pyReplace (s pat new : String) : String :=
  String.mk (replaceAllAux pat.data new.data s.data.length s.data)

/-- ASCII lowercase of one character, as Python `str.lower` acts on the ASCII
range (the README/LICENSE name lists of the source are all ASCII). -/
def lowerChar (c : Char) : Char :=
  if 'A' ≤ c && c ≤ 'Z' then Char.ofNat (c.toNat + 32) else c

/-- Model of Python `s.lower()` on ASCII data. -/
def pyLower (s : String) : String :=
  String.mk (s.data.map lowerChar)

/-! ### Model of `urllib.parse.urlparse`, restricted to the `netloc`/`path` components
the source reads.  Follows CPython `urlsplit`: strip C0-control/space at both
ends, drop tab/CR/LF, split off a scheme, a `//`-introduced netloc, the
fragment, the query, and finally the path parameters.  (The CPython
`ValueError` on unbracketed IPv6 netlocs is outside the scope of this
embedding; the URLs under study carry no brackets.) -/

/-- The characters CPython allows after the first letter of a URL scheme. -/
def schemeCharOk (c : Char) : Bool :=
  c.isAlpha || c.isDigit || c == '+' || c == '-' || c == '.'

/-- C0 control characters and space, stripped at both ends by `urlsplit`. -/
def isC0OrSpace (c : Char) : Bool := c.toNat ≤ 32

/-- Index of the last occurrence of `c`, model of Python `s.rfind(c)` when
present. -/
def lastIdxOf (c : Char) (cs : List Char) : Option Nat :=
  match cs.reverse.findIdx? (· == c) with
  | some k => some (cs.length - 1 - k)
  | none => none

/-- Model of CPython `urllib.parse._splitparams` restricted to the returned
path: drops a `;params` suffix of the last path segment. -/
def splitParamsList (cs : List Char) : List Char :=
  match lastIdxOf '/' cs with
  | some j =>
    match (cs.drop j).findIdx? (· == ';') with
    | some k => cs.take (j + k)
    | none => cs
  | none =>
    match cs.findIdx? (· == ';') with
    | some i => cs.take i
    | none => cs

/-- Model of `urllib.parse.urlparse(url)` returning `(netloc, path)`. -/
def urlsplitNetlocPath (url : String) : String × String :=
  let cs := url.data
  let cs := ((cs.dropWhile isC0OrSpace).reverse.dropWhile isC0OrSpace).reverse
  let cs := cs.filter (fun c => !(c == '\t' || c == '\r' || c == '\n'))
  let cs :=
    match cs.findIdx? (· == ':') with
    | some i =>
      if 0 < i then
        match cs with
        | c0 :: _ =>
          if c0.isAlpha && ((cs.take i).drop 1).all schemeCharOk then cs.drop (i + 1) else cs
        | [] => cs
      else cs
    | none => cs
  let netloc :=
    if listStarts ['/', '/'] cs then
      (cs.drop 2).takeWhile (fun c => !(c == '/' || c == '?' || c == '#'))
    else []
  let rest :=
    if listStarts ['/', '/'] cs then (cs.drop 2).drop netloc.length else cs
  let rest := rest.takeWhile (· != '#')
  let rest := rest.takeWhile (· != '?')
  (String.mk netloc, String.mk (splitParamsList rest))

/-! ### From `package_info.py`: `parse_repo_url` and `extract_repo_info` -/

/-- The `primary_repo_types` of `extract_repo_info`. -/
def primary_repo_types : List String := ["Source", "Repository", "Code"]

/-- The `secondary_repo_types` of `extract_repo_info`. -/
def secondary_repo_types : List String := ["Homepage"]

/-- The `excluded_types` of `extract_repo_info`. -/
def excluded_types : List String :=
  ["Funding", "Sponsor", "Donate", "Bug Tracker", "Issue Tracker", "Documentation"]

/-- Lines 56-57 of `package_info.py`: drop a literal `git+` prefix. -/
def stripGitPlus (url : String) : String :=
  if listStarts "git+".data url.data then String.mk (url.data.drop 4) else url

/-- The `parsed_url.netloc` the source inspects (after the `git+` strip). -/
def netlocOf (url : String) : String :=
  (urlsplitNetlocPath (stripGitPlus url)).1

/-- The `path_parts` list of `parse_repo_url`:
`parsed_url.path.strip('/').split('/')`. -/
def pathPartsOf (url : String) : List String :=
  (pySplitChar '/' (pyStripChar '/' (urlsplitNetlocPath (stripGitPlus url)).2.data)).map String.mk

/-- The `if/elif` host classification chain of `parse_repo_url`
(lines 64-69). -/
def hostPlatform (netloc : String) : Option String :=
  if strEnds netloc ".github.com" || netloc == "github.com" then some "github"
  else if strEnds netloc ".gitlab.com" || netloc == "gitlab.com" then some "gitlab"
  else if strEnds netloc ".bitbucket.org" || netloc == "bitbucket.org" then some "bitbucket"
  else none

/-- The `parse_repo_url` of `package_info.py`: `(platform, org, repo)`, all `none`
when the URL is not recognized.  `repo.replace('.git', '')` is modeled by
`pyReplace`, which (like Python `str.replace`) removes every occurrence. -/
def parse_repo_url (url : String) : Option String × Option String × Option String :=
  match pathPartsOf url with
  | org :: repo :: _ =>
    let repo := pyReplace repo ".git" ""
    match hostPlatform (netlocOf url) with
    | some pl => (some pl, some org, some repo)
    | none => (none, none, none)
  | _ => (none, none, none)

/-- Python truthiness of an optional string (`if platform:`): `None` and the
empty string are falsy. -/
def truthyOpt : Option String → Bool
  | none => false
  | some s => !s.data.isEmpty

/-- The slice of a PyPI metadata blob that `extract_repo_info` reads: the
optional `project_urls` mapping, as an insertion-ordered association list. -/
structure PyPIInfo where
  project_urls : Option (List (String × String))

/-- One `for url_type, url in info["project_urls"].items():` loop of
`extract_repo_info`: return the first entry whose label satisfies `pred` and
whose URL parses to a truthy platform. -/
def scanUrls (pred : String → Bool) :
    List (String × String) → Option (String × String × Option String × Option String)
  | [] => none
  | (t, u) :: rest =>
    if pred t then
      match parse_repo_url u with
      | (some pl, o, r) => if pl.data.isEmpty then scanUrls pred rest else some (u, pl, o, r)
      | (none, _, _) => scanUrls pred rest
    else scanUrls pred rest

/-- The `extract_repo_info` of `package_info.py`: `(repo_url, platform, org, repo)`.
The three sequential loops of the source are the three `scanUrls` passes. -/
def extract_repo_info (info : Option PyPIInfo) :
    Option String × Option String × Option String × Option String :=
  match info with
  | none => (none, none, none, none)
  | some i =>
    match i.project_urls with
    | none => (none, none, none, none)
    | some urls =>
      match scanUrls (fun t => primary_repo_types.contains t) urls with
      | some (u, pl, o, r) => (some u, some pl, o, r)
      | none =>
        match scanUrls (fun t => secondary_repo_types.contains t) urls with
        | some (u, pl, o, r) => (some u, some pl, o, r)
        | none =>
          match scanUrls (fun t => !excluded_types.contains t) urls with
          | some (u, pl, o, r) => (some u, some pl, o, r)
          | none => (none, none, none, none)

/-! ### From `helpers.py`: `parse_iso8601_timestamp`, via a model of CPython
`datetime.strptime` for the two formats `"%Y-%m-%dT%H:%M:%S.%fZ"` and
`"%Y-%m-%dT%H:%M:%SZ"`.  CPython compiles the format to a case-insensitive
regex (numeric fields of bounded width with the ranges below, literals
matched up to letter case) anchored at both ends, then builds a `datetime`,
which additionally validates the day against the month length.  A parse
failure of either format is the `ValueError` of the source, modeled as
`none`. -/

/-- Greedily consume up to `maxD` digit characters, returning the value read,
how many digits were read, and the rest. -/
def takeDigitsAux : Nat → Nat → Nat → List Char → Nat × Nat × List Char
  | 0, acc, cnt, cs => (acc, cnt, cs)
  | n + 1, acc, cnt, cs =>
    match cs with
    | c :: rest =>
      if c.isDigit then takeDigitsAux n (acc * 10 + (c.toNat - 48)) (cnt + 1) rest
      else (acc, cnt, cs)
    | [] => (acc, cnt, [])

/-- One numeric `strptime` field: between `minD` and `maxD` digits with value
in `[lo, hi]`.  (For the formats at hand the character after a field is never
a digit, so greedy matching agrees with the CPython regex.) -/
def parseNumField (maxD minD lo hi : Nat) (cs : List Char) :
    Option (Nat × Nat × List Char) :=
  let (v, cnt, rest) := takeDigitsAux maxD 0 0 cs
  if minD ≤ cnt ∧ lo ≤ v ∧ v ≤ hi then some (v, cnt, rest) else none

/-- One literal format character, matched case-insensitively as CPython
`_strptime` does (re.IGNORECASE). -/
def expectCI (c : Char) : List Char → Option (List Char)
  | [] => none
  | d :: rest => if lowerChar d == lowerChar c then some rest else none

/-- Proleptic-Gregorian leap-year test, as `datetime` uses. -/
def isLeapYear (y : Nat) : Bool :=
  y % 4 == 0 && (y % 100 != 0 || y % 400 == 0)

/-- Length of a month, as the `datetime` constructor validates it. -/
def daysInMonth (y m : Nat) : Nat :=
  if m == 2 then (if isLeapYear y then 29 else 28)
  else if m == 4 || m == 6 || m == 9 || m == 11 then 30
  else 31

/-- The shared `"%Y-%m-%dT%H:%M:%S"` front of both formats.  Seconds are
capped at 59: the CPython regex admits leap seconds 60-61 but the `datetime`
constructor then rejects them, so the end-to-end outcome (`ValueError`)
agrees. -/
def parseYmdHms (cs : List Char) :
    Option ((Nat × Nat × Nat × Nat × Nat × Nat) × List Char) := do
  let (y, _, cs) ← parseNumField 4 4 0 9999 cs
  let cs ← expectCI '-' cs
  let (mo, _, cs) ← parseNumField 2 1 1 12 cs
  let cs ← expectCI '-' cs
  let (d, _, cs) ← parseNumField 2 1 1 31 cs
  let cs ← expectCI 'T' cs
  let (h, _, cs) ← parseNumField 2 1 0 23 cs
  let cs ← expectCI ':' cs
  let (mi, _, cs) ← parseNumField 2 1 0 59 cs
  let cs ← expectCI ':' cs
  let (se, _, cs) ← parseNumField 2 1 0 59 cs
  pure ((y, mo, d, h, mi, se), cs)

/-- A parsed, `datetime`-validated timestamp (year 1-9999). -/
structure PyDateTime where
  year : Nat
  month : Nat
  day : Nat
  hour : Nat
  minute : Nat
  second : Nat
  micro : Nat
deriving DecidableEq

/-- The validation the `datetime` constructor adds on top of the regex:
`MINYEAR ≤ year` and the day fits the month. -/
def finishDateTime (y mo d h mi se us : Nat) : Option PyDateTime :=
  if 1 ≤ y ∧ d ≤ daysInMonth y mo then some ⟨y, mo, d, h, mi, se, us⟩ else none

/-- The `datetime.strptime(timestamp, "%Y-%m-%dT%H:%M:%S.%fZ")`. -/
def strptimeFrac (s : String) : Option PyDateTime := do
  let ((y, mo, d, h, mi, se), cs) ← parseYmdHms s.data
  let cs ← expectCI '.' cs
  let (f, cnt, cs) ← parseNumField 6 1 0 999999 cs
  let cs ← expectCI 'Z' cs
  match cs with
  | [] => finishDateTime y mo d h mi se (f * 10 ^ (6 - cnt))
  | _ => none

/-- The `datetime.strptime(timestamp, "%Y-%m-%dT%H:%M:%SZ")`. -/
def strptimeSec (s : String) : Option PyDateTime := do
  let ((y, mo, d, h, mi, se), cs) ← parseYmdHms s.data
  let cs ← expectCI 'Z' cs
  match cs with
  | [] => finishDateTime y mo d h mi se 0
  | _ => none

/-- Leap days in years `1..y` (proleptic Gregorian). -/
def leapsBeforeYear (y : Nat) : Nat := y / 4 - y / 100 + y / 400

/-- Days before month `mo` in year `y`. -/
def daysBeforeMonth (y mo : Nat) : Nat :=
  [0, 31, 59, 90, 120, 151, 181, 212, 243, 273, 304, 334].getD (mo - 1) 0
    + (if 2 < mo && isLeapYear y then 1 else 0)

/-- The `date(y, mo, d).toordinal()` (ordinal 1 = 0001-01-01). -/
def toOrdinal (y mo d : Nat) : Nat :=
  365 * (y - 1) + leapsBeforeYear (y - 1) + daysBeforeMonth y mo + d

/-- The instant of a parsed UTC timestamp, in microseconds since the Unix
epoch (`toordinal` of 1970-01-01 is 719163). -/
def epochMicros (dt : PyDateTime) : Int :=
  (((toOrdinal dt.year dt.month dt.day : Int) - 719163) * 86400
      + dt.hour * 3600 + dt.minute * 60 + dt.second) * 1000000 + dt.micro

/-- The `parse_iso8601_timestamp` of `helpers.py`: try the fractional format,
then the plain one; `none` models the `ValueError` raised when both fail.
The result is the UTC instant in microseconds since the epoch. -/
def parse_iso8601_timestamp (timestamp : String) : Option Int :=
  match strptimeFrac timestamp with
  | some dt => some (epochMicros dt)
  | none =>
    match strptimeSec timestamp with
    | some dt => some (epochMicros dt)
    | none => none

/-! ### From `schemas.py`: `Policy` and `HealthCheckResult` -/

/-- The `Policy` of `schemas.py`. -/
structure Policy where
  max_inactive_days : Int := 365
  require_license : Bool := true
  require_readme : Bool := true
deriving DecidableEq

/-- The `HealthCheckResult` of `schemas.py`. -/
structure HealthCheckResult where
  repository_url : String
  platform : String
  owner : String
  repo_name : String
  last_activity : Option String := none
  days_since_last_activity : Option Int := none
  open_issues_count : Option Int := none
  stars_count : Option Int := none
  forks_count : Option Int := none
  has_readme : Bool := false
  has_license : Bool := false
  warnings : List String := []
  errors : List String := []
  is_healthy : Bool := true
deriving DecidableEq

/-! ### From `repo_health.py`: the two health evaluators.

The HTTP layer is modeled by a `Fetch` outcome per request: either the
`requests.get` call raises a `RequestException` carrying `msg` (`netError`),
or it returns a response with a status code, a reason phrase and the decoded
body.  `raise_for_status` is `httpRaise`.  The wall clock
`datetime.now(timezone.utc)` is the explicit field `now_us`.  The straight-line
`try:` block is a list of steps run by `runSteps`: a step either continues,
halts with the `except RequestException` handler applied (`halt`), or raises
an exception the handler does not catch (`thrown`, the `ValueError` of
`parse_iso8601_timestamp`). -/

/-- Outcome of one `requests.get` call. -/
inductive Fetch (α : Type) where
  | netError (msg : String)
  | ok (status : Nat) (reason : String) (body : α)

/-- The fields `check_github_health` reads from `GET /repos/{owner}/{repo}`. -/
structure GithubRepoData where
  pushed_at : Option String := none
  stargazers_count : Option Int := none
  forks_count : Option Int := none

/-- The fields `check_gitlab_health` reads from `GET /projects/{o}%2F{r}`. -/
structure GitlabProjData where
  last_activity_at : Option String := none
  star_count : Option Int := none
  forks_count : Option Int := none
  default_branch : Option String := none

/-- Upstream responses for one `check_github_health` evaluation: repository
metadata, the issues array (only its length matters), the root listing (only
the `name` of each entry matters), and the current time. -/
structure GithubEnv where
  repoResp : Fetch GithubRepoData
  issuesResp : Fetch Nat
  contentsResp : Fetch (List String)
  now_us : Int

/-- Upstream responses for one `check_gitlab_health` evaluation; `fileResp`
answers the per-filename existence probes (against the default branch taken
from the project metadata). -/
structure GitlabEnv where
  projResp : Fetch GitlabProjData
  issuesResp : Fetch Nat
  fileResp : String → Fetch Unit
  now_us : Int

/-- Microseconds per day is the divisor behind `timedelta.days` (which
floors). -/
def usPerDay : Int := 86400000000

/-- The `Response.raise_for_status()`: the `HTTPError` message for a 4xx/5xx
status, `none` otherwise. -/
def httpRaise (status : Nat) (reason url : String) : Option String :=
  if 400 ≤ status ∧ status < 500 then
    some (toString status ++ " Client Error: " ++ reason ++ " for url: " ++ url)
  else if 500 ≤ status ∧ status < 600 then
    some (toString status ++ " Server Error: " ++ reason ++ " for url: " ++ url)
  else none

/-- Result of one statement group of the `try:` block. -/
inductive StepRes where
  | cont (r : HealthCheckResult)
  | halt (r : HealthCheckResult)
  | thrown (msg : String)

/-- Run the statement groups in order: `halt` ends the evaluation with the
handler already applied, `thrown` propagates to the caller. -/
def runSteps : List (HealthCheckResult → StepRes) → HealthCheckResult →
    Except String HealthCheckResult
  | [], r => .ok r
  | s :: rest, r =>
    match s r with
    | .cont r2 => runSteps rest r2
    | .halt r2 => .ok r2
    | .thrown m => .error m

/-- The `README_FILES` of `repo_health.py`. -/
def README_FILES : List String :=
  ["README.md", "README.rst", "README.txt", "README",
   "README.markdown", "README.mdown", "README.mkdn"]

/-- The `LICENSE_FILES` of `repo_health.py`. -/
def LICENSE_FILES : List String :=
  ["LICENSE", "LICENSE.md", "LICENSE.txt", "LICENSE.markdown", "LICENSE.mdown",
   "LICENSE.mkdn", "COPYING", "COPYING.md", "COPYING.txt", "COPYING.markdown",
   "COPYING.mdown", "COPYING.mkdn"]

/-- The request headers of `check_github_health` (they only influence the
upstream responses, which the environment fixes). -/
def githubHeaders (token : Option String) : List (String × String) :=
  [("Accept", "application/vnd.github.v3+json")] ++
    (match token with
     | some t => [("Authorization", "token " ++ t)]
     | none => [])

/-- The request headers of `check_gitlab_health`. -/
def gitlabHeaders (token : Option String) : List (String × String) :=
  match token with
  | some t => [("PRIVATE-TOKEN", t)]
  | none => []

/-- The `GITHUB_API_BASE`. -/
def GITHUB_API_BASE : String := "https://api.github.com"

/-- The `GITLAB_API_BASE`. -/
def GITLAB_API_BASE : String := "https://gitlab.com/api/v4"

/-- The `repo_url` of line 50. -/
def githubRepoApiUrl (owner repo : String) : String :=
  GITHUB_API_BASE ++ "/repos/" ++ owner ++ "/" ++ repo

/-- The `issues_url` of line 66. -/
def githubIssuesApiUrl (owner repo : String) : String :=
  githubRepoApiUrl owner repo ++ "/issues"

/-- The `project_url` of line 115. -/
def gitlabProjApiUrl (owner repo : String) : String :=
  GITLAB_API_BASE ++ "/projects/" ++ owner ++ "%2F" ++ repo

/-- The `issues_url` of line 131. -/
def gitlabIssuesApiUrl (owner repo : String) : String :=
  gitlabProjApiUrl owner repo ++ "/issues"

/-- The freshly initialized result of lines 42-47. -/
def ghInit (owner repo : String) : HealthCheckResult :=
  { repository_url := "https://github.com/" ++ owner ++ "/" ++ repo
    platform := "github", owner := owner, repo_name := repo }

/-- The freshly initialized result of lines 107-112. -/
def glInit (owner repo : String) : HealthCheckResult :=
  { repository_url := "https://gitlab.com/" ++ owner ++ "/" ++ repo
    platform := "gitlab", owner := owner, repo_name := repo }

/-- The `except RequestException` handler of `check_github_health`
(lines 86-89). -/
def ghErr (r : HealthCheckResult) (m : String) : HealthCheckResult :=
  { r with errors := r.errors ++ ["Error checking GitHub repository: " ++ m],
           is_healthy := false }

/-- The `except RequestException` handler of `check_gitlab_health`
(lines 164-167). -/
def glErr (r : HealthCheckResult) (m : String) : HealthCheckResult :=
  { r with errors := r.errors ++ ["Error checking GitLab repository: " ++ m],
           is_healthy := false }

/-- Lines 60-64 and identically 125-129: the inactivity `if/elif` applied to
the computed day count `d`. -/
def applyInactivity (policy : Policy) (d : Int) (r : HealthCheckResult) :
    HealthCheckResult :=
  if policy.max_inactive_days < d then
    { r with
      warnings := r.warnings ++
        ["Repository has been inactive for over " ++
          toString policy.max_inactive_days ++ " days"],
      is_healthy := false }
  else if 90 < d then
    { r with warnings := r.warnings ++ ["Repository has been inactive for over 90 days"] }
  else r

/-- Lines 50-64: fetch the repository metadata, record `last_activity`, and
when it is truthy compute `days_since_last_activity` and apply the inactivity
policy.  An unparsable timestamp is a `ValueError`, which the handler does
not catch. -/
def ghMeta (policy : Policy) (env : GithubEnv) (u : String)
    (r : HealthCheckResult) : StepRes :=
  match env.repoResp with
  | .netError m => .halt (ghErr r m)
  | .ok status reason body =>
    match httpRaise status reason u with
    | some m => .halt (ghErr r m)
    | none =>
      let r := { r with last_activity := body.pushed_at }
      match body.pushed_at with
      | none => .cont r
      | some s =>
        if s.data.isEmpty then .cont r
        else
          match parse_iso8601_timestamp s with
          | none => .thrown ("Invalid ISO 8601 timestamp format: " ++ s)
          | some ts =>
            let d := Int.fdiv (env.now_us - ts) usPerDay
            .cont (applyInactivity policy d
              { r with days_since_last_activity := some d })

/-- Lines 66-69: fetch the issues and record their count. -/
def ghIssues (env : GithubEnv) (u : String) (r : HealthCheckResult) : StepRes :=
  match env.issuesResp with
  | .netError m => .halt (ghErr r m)
  | .ok status reason n =>
    match httpRaise status reason u with
    | some m => .halt (ghErr r m)
    | none => .cont { r with open_issues_count := some (n : Int) }

/-- Lines 71-72: stars and forks from the already fetched metadata (control
only reaches this step when the metadata fetch succeeded). -/
def ghStars (env : GithubEnv) (r : HealthCheckResult) : StepRes :=
  match env.repoResp with
  | .ok _ _ body =>
    .cont { r with stars_count := some (body.stargazers_count.getD 0),
                   forks_count := some (body.forks_count.getD 0) }
  | .netError _ => .cont r

/-- The case-insensitive membership test of lines 78-79. -/
def listHasNameIn (names : List String) (contents : List String) : Bool :=
  contents.any (fun n => (names.map pyLower).contains (pyLower n))

/-- Lines 74-85: fetch the root listing; only on a literal 200 does the
source set the flags and enforce the README/LICENSE policy. -/
def ghContents (policy : Policy) (env : GithubEnv) (r : HealthCheckResult) :
    StepRes :=
  match env.contentsResp with
  | .netError m => .halt (ghErr r m)
  | .ok status _ items =>
    if status == 200 then
      let hr := listHasNameIn README_FILES items
      let hl := listHasNameIn LICENSE_FILES items
      let r := { r with has_readme := hr, has_license := hl }
      let r :=
        if policy.require_readme && !hr then
          { r with warnings := r.warnings ++ ["No README file found"], is_healthy := false }
        else r
      let r :=
        if policy.require_license && !hl then
          { r with warnings := r.warnings ++ ["No LICENSE file found"], is_healthy := false }
        else r
      .cont r
    else .cont r

/-- The statement groups of the `try:` block of `check_github_health`. -/
def githubSteps (owner repo : String) (policy : Policy) (env : GithubEnv) :
    List (HealthCheckResult → StepRes) :=
  [ghMeta policy env (githubRepoApiUrl owner repo),
   ghIssues env (githubIssuesApiUrl owner repo),
   ghStars env,
   ghContents policy env]

/-- The `check_github_health` of `repo_health.py`.  The token only shapes the
request headers (`githubHeaders`), hence the responses, which the environment
already fixes. -/
def check_github_health (owner repo : String) (policy : Policy)
    (_token : Option String) (env : GithubEnv) : Except String HealthCheckResult :=
  runSteps (githubSteps owner repo policy env) (ghInit owner repo)

/-- Lines 114-129: the GitLab metadata step, identical to `ghMeta` up to the
field (`last_activity_at`) and the error prefix. -/
def glMeta (policy : Policy) (env : GitlabEnv) (u : String)
    (r : HealthCheckResult) : StepRes :=
  match env.projResp with
  | .netError m => .halt (glErr r m)
  | .ok status reason body =>
    match httpRaise status reason u with
    | some m => .halt (glErr r m)
    | none =>
      let r := { r with last_activity := body.last_activity_at }
      match body.last_activity_at with
      | none => .cont r
      | some s =>
        if s.data.isEmpty then .cont r
        else
          match parse_iso8601_timestamp s with
          | none => .thrown ("Invalid ISO 8601 timestamp format: " ++ s)
          | some ts =>
            let d := Int.fdiv (env.now_us - ts) usPerDay
            .cont (applyInactivity policy d
              { r with days_since_last_activity := some d })

/-- Lines 131-134. -/
def glIssues (env : GitlabEnv) (u : String) (r : HealthCheckResult) : StepRes :=
  match env.issuesResp with
  | .netError m => .halt (glErr r m)
  | .ok status reason n =>
    match httpRaise status reason u with
    | some m => .halt (glErr r m)
    | none => .cont { r with open_issues_count := some (n : Int) }

/-- Lines 136-137 (`star_count`, `forks_count` with default 0). -/
def glStars (env : GitlabEnv) (r : HealthCheckResult) : StepRes :=
  match env.projResp with
  | .ok _ _ body =>
    .cont { r with stars_count := some (body.star_count.getD 0),
                   forks_count := some (body.forks_count.getD 0) }
  | .netError _ => .cont r

/-- One per-filename probe loop (lines 142-148 and 154-160): `true` on the
first 200 response, a raised `RequestException` aborts the loop. -/
def probeFiles (f : String → Fetch Unit) : List String → Except String Bool
  | [] => .ok false
  | n :: rest =>
    match f n with
    | .netError m => .error m
    | .ok status _ _ => if status == 200 then .ok true else probeFiles f rest

/-- Lines 140-151: the README probes and the README policy check. -/
def glReadme (policy : Policy) (env : GitlabEnv) (r : HealthCheckResult) :
    StepRes :=
  let r := { r with has_readme := false }
  match probeFiles env.fileResp README_FILES with
  | .error m => .halt (glErr r m)
  | .ok b =>
    let r := { r with has_readme := b }
    if policy.require_readme && !b then
      .cont { r with warnings := r.warnings ++ ["No README file found"], is_healthy := false }
    else .cont r

/-- Lines 152-163: the LICENSE probes and the LICENSE policy check. -/
def glLicense (policy : Policy) (env : GitlabEnv) (r : HealthCheckResult) :
    StepRes :=
  let r := { r with has_license := false }
  match probeFiles env.fileResp LICENSE_FILES with
  | .error m => .halt (glErr r m)
  | .ok b =>
    let r := { r with has_license := b }
    if policy.require_license && !b then
      .cont { r with warnings := r.warnings ++ ["No LICENSE file found"], is_healthy := false }
    else .cont r

/-- The statement groups of the `try:` block of `check_gitlab_health`. -/
def gitlabSteps (owner repo : String) (policy : Policy) (env : GitlabEnv) :
    List (HealthCheckResult → StepRes) :=
  [glMeta policy env (gitlabProjApiUrl owner repo),
   glIssues env (gitlabIssuesApiUrl owner repo),
   glStars env,
   glReadme policy env,
   glLicense policy env]

/-- The `check_gitlab_health` of `repo_health.py`. -/
def check_gitlab_health (owner repo : String) (policy : Policy)
    (_token : Option String) (env : GitlabEnv) : Except String HealthCheckResult :=
  runSteps (gitlabSteps owner repo policy env) (glInit owner repo)

/-- Projection used in statements: the `days_since_last_activity` of a
returned result. -/
def resultDays : Except String HealthCheckResult → Option Int
  | .ok r => r.days_since_last_activity
  | .error _ => none

/-- Projection used in statements: the state a step hands on (`cont` or
`halt`). -/
def stepState : StepRes → Option HealthCheckResult
  | .cont r => some r
  | .halt r => some r
  | .thrown _ => none

/-! ### Predicates and spec-side definitions used by the claim statements -/

/-- Recognizer for the two inactivity warning strings of a given policy. -/
def inactWarnB (p : Policy) (w : String) : Bool :=
  w == ("Repository has been inactive for over " ++
          toString p.max_inactive_days ++ " days") ||
    w == "Repository has been inactive for over 90 days"

/-- A step that neither touches `days_since_last_activity`, nor revives
`is_healthy`, nor appends an inactivity warning. -/
def stepTame (p : Policy) (s : HealthCheckResult → StepRes) : Prop :=
  ∀ r r2, stepState (s r) = some r2 →
    r2.days_since_last_activity = r.days_since_last_activity ∧
    (r2.is_healthy = r.is_healthy ∨ r2.is_healthy = false) ∧
    ∃ ws, r2.warnings = r.warnings ++ ws ∧ ws.countP (inactWarnB p) = 0

/-- A step that never revives `is_healthy` and appends at most one
inactivity warning (the metadata steps). -/
def stepSoftTame (p : Policy) (s : HealthCheckResult → StepRes) : Prop :=
  ∀ r r2, stepState (s r) = some r2 →
    (r2.is_healthy = r.is_healthy ∨ r2.is_healthy = false) ∧
    ∃ ws, r2.warnings = r.warnings ++ ws ∧ ws.countP (inactWarnB p) ≤ 1

/-- A step that never turns `is_healthy` from `false` back to `true`. -/
def stepHealthMono (s : HealthCheckResult → StepRes) : Prop :=
  ∀ r r2, stepState (s r) = some r2 → r.is_healthy = false → r2.is_healthy = false

/-- Spec-side (from the spec's words): a URL resolves to a recognized
platform. -/
def recognizedUrlB (u : String) : Bool :=
  truthyOpt (parse_repo_url u).1

/-- Spec-side: first entry of one tier, in mapping iteration order, whose URL
resolves to a recognized platform. -/
def tierFirst (pred : String → Bool) (urls : List (String × String)) :
    Option (String × String) :=
  urls.find? (fun tu => pred tu.1 && recognizedUrlB tu.2)

/-- Spec-side: the quadruple built from a winning URL. -/
def buildResolved (u : String) :
    Option String × Option String × Option String × Option String :=
  match parse_repo_url u with
  | (some pl, o, r) => (some u, some pl, o, r)
  | (none, _, _) => (none, none, none, none)

/-- Spec-side tier 1: labels exactly `Source`, `Repository`, or `Code`. -/
def specTier1 (t : String) : Bool :=
  t == "Source" || t == "Repository" || t == "Code"

/-- Spec-side tier 2: label `Homepage`. -/
def specTier2 (t : String) : Bool := t == "Homepage"

/-- Spec-side tier 3: any label not in the excluded set
`{Funding, Sponsor, Donate, Bug Tracker, Issue Tracker, Documentation}`. -/
def specTier3 (t : String) : Bool :=
  !(t == "Funding" || t == "Sponsor" || t == "Donate" || t == "Bug Tracker" ||
      t == "Issue Tracker" || t == "Documentation")

/-- Modelled from the spec's resolution-order wording: scan tier 1, then
tier 2, then tier 3, returning the first URL that resolves to a recognized
platform, preserving mapping order within a tier. -/
def extract_repo_info_spec (info : Option PyPIInfo) :
    Option String × Option String × Option String × Option String :=
  match info with
  | none => (none, none, none, none)
  | some i =>
    match i.project_urls with
    | none => (none, none, none, none)
    | some urls =>
      match tierFirst specTier1 urls with
      | some tu => buildResolved tu.2
      | none =>
        match tierFirst specTier2 urls with
        | some tu => buildResolved tu.2
        | none =>
          match tierFirst specTier3 urls with
          | some tu => buildResolved tu.2
          | none => (none, none, none, none)

/-! ### Concrete environments for witnesses and counterexamples -/

/-- A GitLab file-probe function answering 404 for every filename. -/
def probeAll404 : String → Fetch Unit := fun _ => .ok 404 "Not Found" Unit.unit

/-- All fetches succeed, the root listing returns 404, no timestamp. -/
def envC2ce : GithubEnv :=
  { repoResp := .ok 200 "OK" {}
    issuesResp := .ok 200 "OK" 0
    contentsResp := .ok 404 "Not Found" []
    now_us := 0 }

/-- Successful evaluation whose `pushed_at` lies two days in the future of
the evaluation instant (`now_us = 0` is 1970-01-01T00:00:00Z). -/
def envC9ce : GithubEnv :=
  { repoResp := .ok 200 "OK" { pushed_at := some "1970-01-03T00:00:00Z" }
    issuesResp := .ok 200 "OK" 0
    contentsResp := .ok 200 "OK" ["README.md", "LICENSE"]
    now_us := 0 }

/-- The repository-metadata fetch raises a network exception. -/
def envNetErr : GithubEnv :=
  { repoResp := .netError "boom"
    issuesResp := .ok 200 "OK" 0
    contentsResp := .ok 200 "OK" []
    now_us := 0 }

/-- Successful evaluation, 197 days after the recorded push. -/
def envPast : GithubEnv :=
  { repoResp := .ok 200 "OK" { pushed_at := some "1970-01-03T00:00:00Z" }
    issuesResp := .ok 200 "OK" 0
    contentsResp := .ok 200 "OK" ["README.md", "LICENSE"]
    now_us := 199 * usPerDay }

/-- Metadata succeeds but carries a timestamp with a `+00:00` offset, which
neither `strptime` format accepts. -/
def envBadTs : GithubEnv :=
  { repoResp := .ok 200 "OK" { pushed_at := some "2024-01-15T12:00:00+00:00" }
    issuesResp := .ok 200 "OK" 0
    contentsResp := .ok 200 "OK" []
    now_us := 0 }

/-- A result whose health flag is already `false` (for exercising
monotonicity). -/
def rUnhealthy : HealthCheckResult := { ghInit "a" "b" with is_healthy := false }

/-- A trivial GitLab environment. -/
def lenvTriv : GitlabEnv :=
  { projResp := .netError "boom"
    issuesResp := .netError "boom"
    fileResp := probeAll404
    now_us := 0 }

/-- All fetches succeed with status 200 and an empty root listing. -/
def envC2w : GithubEnv :=
  { repoResp := .ok 200 "OK" {}
    issuesResp := .ok 200 "OK" 0
    contentsResp := .ok 200 "OK" []
    now_us := 0 }

/-- The result `envC2w` produces under the default policy. -/
def resC2w : HealthCheckResult :=
  { ghInit "a" "b" with
    warnings := ["No README file found", "No LICENSE file found"]
    is_healthy := false }

/-- A policy with a 100-day inactivity threshold. -/
def polC1 : Policy := { max_inactive_days := 100 }

/-- The result `envPast` produces under the default policy. -/
def resPastC9 : HealthCheckResult :=
  { repository_url := "https://github.com/o/r", platform := "github",
    owner := "o", repo_name := "r",
    last_activity := some "1970-01-03T00:00:00Z",
    days_since_last_activity := some 197,
    open_issues_count := some 0, stars_count := some 0, forks_count := some 0,
    has_readme := true, has_license := true,
    warnings := ["Repository has been inactive for over 90 days"],
    errors := [], is_healthy := true }

/-! ### Basic lemmas -/

lemma repoWarnHead (x : String) :
    ("Repository has been inactive for over " ++ x ++ " days").data.head? = some 'R' := by
  cases x with
  | mk data => rfl

lemma ne_of_head {a b : String} (h : a.data.head? ≠ b.data.head?) : a ≠ b :=
  fun he => h (congrArg (fun s : String => s.data.head?) he)

lemma inactWarnB_noReadme (p : Policy) : inactWarnB p "No README file found" = false := by
  unfold inactWarnB
  rw [Bool.or_eq_false_iff]
  constructor
  · exact beq_eq_false_iff_ne.mpr (ne_of_head (by rw [repoWarnHead]; decide))
  · decide

lemma inactWarnB_noLicense (p : Policy) : inactWarnB p "No LICENSE file found" = false := by
  unfold inactWarnB
  rw [Bool.or_eq_false_iff]
  constructor
  · exact beq_eq_false_iff_ne.mpr (ne_of_head (by rw [repoWarnHead]; decide))
  · decide

lemma applyInactivity_days (p : Policy) (d : Int) (r : HealthCheckResult) :
    (applyInactivity p d r).days_since_last_activity = r.days_since_last_activity := by
  unfold applyInactivity
  split
  · rfl
  · split <;> rfl

lemma applyInactivity_errors (p : Policy) (d : Int) (r : HealthCheckResult) :
    (applyInactivity p d r).errors = r.errors := by
  unfold applyInactivity
  split
  · rfl
  · split <;> rfl

lemma applyInactivity_fields (p : Policy) (d : Int) (r : HealthCheckResult) :
    ((applyInactivity p d r).is_healthy = r.is_healthy ∨
        (applyInactivity p d r).is_healthy = false) ∧
      ∃ ws, (applyInactivity p d r).warnings = r.warnings ++ ws ∧
        ws.countP (inactWarnB p) ≤ 1 := by
  unfold applyInactivity
  split
  · exact ⟨Or.inr rfl, ⟨_, rfl, le_trans (List.countP_le_length _) (by simp)⟩⟩
  · split
    · exact ⟨Or.inl rfl, ⟨_, rfl, le_trans (List.countP_le_length _) (by simp)⟩⟩
    · exact ⟨Or.inl rfl, ⟨[], by simp, by simp⟩⟩

lemma ghMeta_eq (p : Policy) (env : GithubEnv) (u : String) (r : HealthCheckResult)
    (status : Nat) (reason : String) (body : GithubRepoData) (s : String) (ts : Int)
    (h1 : env.repoResp = .ok status reason body)
    (h2 : httpRaise status reason u = none)
    (h3 : body.pushed_at = some s)
    (h4 : s.data.isEmpty = false)
    (h5 : parse_iso8601_timestamp s = some ts) :
    ghMeta p env u r = .cont (applyInactivity p (Int.fdiv (env.now_us - ts) usPerDay)
      { r with last_activity := some s,
               days_since_last_activity := some (Int.fdiv (env.now_us - ts) usPerDay) }) := by
  unfold ghMeta
  rw [h1]
  simp only [h2, h3, h4, h5, Bool.false_eq_true, if_false]

lemma glMeta_eq (p : Policy) (env : GitlabEnv) (u : String) (r : HealthCheckResult)
    (status : Nat) (reason : String) (body : GitlabProjData) (s : String) (ts : Int)
    (h1 : env.projResp = .ok status reason body)
    (h2 : httpRaise status reason u = none)
    (h3 : body.last_activity_at = some s)
    (h4 : s.data.isEmpty = false)
    (h5 : parse_iso8601_timestamp s = some ts) :
    glMeta p env u r = .cont (applyInactivity p (Int.fdiv (env.now_us - ts) usPerDay)
      { r with last_activity := some s,
               days_since_last_activity := some (Int.fdiv (env.now_us - ts) usPerDay) }) := by
  unfold glMeta
  rw [h1]
  simp only [h2, h3, h4, h5, Bool.false_eq_true, if_false]

lemma ghMeta_cont_errors (p : Policy) (env : GithubEnv) (u : String)
    (r r2 : HealthCheckResult) (h : ghMeta p env u r = .cont r2) :
    r2.errors = r.errors := by
  unfold ghMeta at h
  repeat' split at h
  all_goals cases h
  all_goals first
    | rfl
    | exact applyInactivity_errors _ _ _

lemma glMeta_cont_errors (p : Policy) (env : GitlabEnv) (u : String)
    (r r2 : HealthCheckResult) (h : glMeta p env u r = .cont r2) :
    r2.errors = r.errors := by
  unfold glMeta at h
  repeat' split at h
  all_goals cases h
  all_goals first
    | rfl
    | exact applyInactivity_errors _ _ _

lemma ghIssues_tame (p : Policy) (env : GithubEnv) (u : String) :
    stepTame p (ghIssues env u) := by
  intro r r2 h
  unfold ghIssues at h
  repeat' split at h
  all_goals simp only [stepState, Option.some.injEq] at h
  all_goals subst h
  all_goals try dsimp only
  all_goals repeat' split
  all_goals refine ⟨rfl, ?_, ?_⟩
  all_goals try (first | exact Or.inl rfl | exact Or.inr rfl)
  all_goals first
    | (refine ⟨[], ?_, ?_⟩ <;> (simp [ghErr, glErr]; done))
    | (refine ⟨["No README file found"], ?_, ?_⟩ <;>
        (simp [ghErr, glErr, List.countP_cons, List.countP_nil, List.append_assoc,
          inactWarnB_noReadme, inactWarnB_noLicense]; done))
    | (refine ⟨["No LICENSE file found"], ?_, ?_⟩ <;>
        (simp [ghErr, glErr, List.countP_cons, List.countP_nil, List.append_assoc,
          inactWarnB_noReadme, inactWarnB_noLicense]; done))
    | (refine ⟨["No README file found", "No LICENSE file found"], ?_, ?_⟩ <;>
        (simp [ghErr, glErr, List.countP_cons, List.countP_nil, List.append_assoc,
          inactWarnB_noReadme, inactWarnB_noLicense]; done))

lemma ghStars_tame (p : Policy) (env : GithubEnv) :
    stepTame p (ghStars env) := by
  intro r r2 h
  unfold ghStars at h
  repeat' split at h
  all_goals simp only [stepState, Option.some.injEq] at h
  all_goals subst h
  all_goals exact ⟨rfl, Or.inl rfl, [], by simp, rfl⟩

lemma ghContents_tame (p : Policy) (env : GithubEnv) :
    stepTame p (ghContents p env) := by
  intro r r2 h
  unfold ghContents at h
  repeat' split at h
  all_goals simp only [stepState, Option.some.injEq] at h
  all_goals subst h
  all_goals try dsimp only
  all_goals repeat' split
  all_goals refine ⟨rfl, ?_, ?_⟩
  all_goals try (first | exact Or.inl rfl | exact Or.inr rfl)
  all_goals first
    | (refine ⟨[], ?_, ?_⟩ <;> (simp [ghErr, glErr]; done))
    | (refine ⟨["No README file found"], ?_, ?_⟩ <;>
        (simp [ghErr, glErr, List.countP_cons, List.countP_nil, List.append_assoc,
          inactWarnB_noReadme, inactWarnB_noLicense]; done))
    | (refine ⟨["No LICENSE file found"], ?_, ?_⟩ <;>
        (simp [ghErr, glErr, List.countP_cons, List.countP_nil, List.append_assoc,
          inactWarnB_noReadme, inactWarnB_noLicense]; done))
    | (refine ⟨["No README file found", "No LICENSE file found"], ?_, ?_⟩ <;>
        (simp [ghErr, glErr, List.countP_cons, List.countP_nil, List.append_assoc,
          inactWarnB_noReadme, inactWarnB_noLicense]; done))

lemma glIssues_tame (p : Policy) (env : GitlabEnv) (u : String) :
    stepTame p (glIssues env u) := by
  intro r r2 h
  unfold glIssues at h
  repeat' split at h
  all_goals simp only [stepState, Option.some.injEq] at h
  all_goals subst h
  all_goals exact ⟨rfl, by first | exact Or.inl rfl | exact Or.inr rfl, [], by simp [glErr], rfl⟩

lemma glStars_tame (p : Policy) (env : GitlabEnv) :
    stepTame p (glStars env) := by
  intro r r2 h
  unfold glStars at h
  repeat' split at h
  all_goals simp only [stepState, Option.some.injEq] at h
  all_goals subst h
  all_goals exact ⟨rfl, Or.inl rfl, [], by simp, rfl⟩

lemma glReadme_tame (p : Policy) (env : GitlabEnv) :
    stepTame p (glReadme p env) := by
  intro r r2 h
  unfold glReadme at h
  repeat' split at h
  all_goals simp only [stepState, Option.some.injEq] at h
  all_goals subst h
  all_goals try dsimp only
  all_goals repeat' split
  all_goals refine ⟨rfl, ?_, ?_⟩
  all_goals try (first | exact Or.inl rfl | exact Or.inr rfl)
  all_goals first
    | (refine ⟨[], ?_, ?_⟩ <;> (simp [ghErr, glErr]; done))
    | (refine ⟨["No README file found"], ?_, ?_⟩ <;>
        (simp [ghErr, glErr, List.countP_cons, List.countP_nil, List.append_assoc,
          inactWarnB_noReadme, inactWarnB_noLicense]; done))

lemma glLicense_tame (p : Policy) (env : GitlabEnv) :
    stepTame p (glLicense p env) := by
  intro r r2 h
  unfold glLicense at h
  repeat' split at h
  all_goals simp only [stepState, Option.some.injEq] at h
  all_goals subst h
  all_goals try dsimp only
  all_goals repeat' split
  all_goals refine ⟨rfl, ?_, ?_⟩
  all_goals try (first | exact Or.inl rfl | exact Or.inr rfl)
  all_goals first
    | (refine ⟨[], ?_, ?_⟩ <;> (simp [ghErr, glErr]; done))
    | (refine ⟨["No LICENSE file found"], ?_, ?_⟩ <;>
        (simp [ghErr, glErr, List.countP_cons, List.countP_nil, List.append_assoc,
          inactWarnB_noReadme, inactWarnB_noLicense]; done))

lemma ghMeta_softTame (p : Policy) (env : GithubEnv) (u : String) :
    stepSoftTame p (ghMeta p env u) := by
  intro r r2 h
  unfold ghMeta at h
  repeat' split at h
  all_goals simp only [stepState, Option.some.injEq] at h
  all_goals try (exact absurd h (by simp))
  all_goals subst h
  all_goals try (exact applyInactivity_fields _ _ _)
  all_goals refine ⟨?_, ?_⟩
  all_goals try (first | exact Or.inl rfl | exact Or.inr rfl)
  all_goals (refine ⟨[], ?_, ?_⟩ <;> (simp [ghErr, glErr]; done))

lemma glMeta_softTame (p : Policy) (env : GitlabEnv) (u : String) :
    stepSoftTame p (glMeta p env u) := by
  intro r r2 h
  unfold glMeta at h
  repeat' split at h
  all_goals simp only [stepState, Option.some.injEq] at h
  all_goals try (exact absurd h (by simp))
  all_goals subst h
  all_goals try (exact applyInactivity_fields _ _ _)
  all_goals refine ⟨?_, ?_⟩
  all_goals try (first | exact Or.inl rfl | exact Or.inr rfl)
  all_goals (refine ⟨[], ?_, ?_⟩ <;> (simp [ghErr, glErr]; done))

lemma runSteps_tame_facts (p : Policy) :
    ∀ steps : List (HealthCheckResult → StepRes), (∀ s ∈ steps, stepTame p s) →
      ∀ r0 res, runSteps steps r0 = .ok res →
        res.days_since_last_activity = r0.days_since_last_activity ∧
          (r0.is_healthy = false → res.is_healthy = false) ∧
          ∃ ws, res.warnings = r0.warnings ++ ws ∧ ws.countP (inactWarnB p) = 0 := by
  intro steps
  induction steps with
  | nil =>
    intro _ r0 res hrun
    cases hrun
    exact ⟨rfl, fun hf => hf, [], by simp, rfl⟩
  | cons s rest ih =>
    intro hall r0 res hrun
    unfold runSteps at hrun
    rcases hs : s r0 with r1 | r1 | m <;> rw [hs] at hrun
    · obtain ⟨hd, hh, ws1, hw1, hc1⟩ :=
        hall s (List.mem_cons_self ..) r0 r1 (by rw [hs]; rfl)
      obtain ⟨ihd, ihh, ws2, ihw, ihc⟩ :=
        ih (fun t ht => hall t (List.mem_cons_of_mem _ ht)) r1 res hrun
      refine ⟨ihd.trans hd, ?_, ws1 ++ ws2, ?_, ?_⟩
      · intro hf
        exact ihh (by rcases hh with hh | hh <;> rw [hh] <;> exact hf)
      · rw [ihw, hw1, List.append_assoc]
      · simp [List.countP_append, hc1, ihc]
    · cases hrun
      obtain ⟨hd, hh, ws1, hw1, hc1⟩ :=
        hall s (List.mem_cons_self ..) r0 res (by rw [hs]; rfl)
      refine ⟨hd, ?_, ws1, hw1, hc1⟩
      intro hf
      rcases hh with hh | hh <;> rw [hh]
      exact hf
    · exact absurd hrun (by simp)

lemma ghMeta_throws (p : Policy) (env : GithubEnv) (u : String) (r : HealthCheckResult)
    (status : Nat) (reason : String) (body : GithubRepoData) (s : String)
    (h1 : env.repoResp = .ok status reason body)
    (h2 : httpRaise status reason u = none)
    (h3 : body.pushed_at = some s)
    (h4 : s.data.isEmpty = false)
    (h5 : parse_iso8601_timestamp s = none) :
    ghMeta p env u r = .thrown ("Invalid ISO 8601 timestamp format: " ++ s) := by
  unfold ghMeta
  rw [h1]
  simp only [h2, h3, h4, h5, Bool.false_eq_true, if_false]

lemma glMeta_throws (p : Policy) (env : GitlabEnv) (u : String) (r : HealthCheckResult)
    (status : Nat) (reason : String) (body : GitlabProjData) (s : String)
    (h1 : env.projResp = .ok status reason body)
    (h2 : httpRaise status reason u = none)
    (h3 : body.last_activity_at = some s)
    (h4 : s.data.isEmpty = false)
    (h5 : parse_iso8601_timestamp s = none) :
    glMeta p env u r = .thrown ("Invalid ISO 8601 timestamp format: " ++ s) := by
  unfold glMeta
  rw [h1]
  simp only [h2, h3, h4, h5, Bool.false_eq_true, if_false]

/-! ### Claim theorems -/

/-- Claim C8: evaluation is deterministic.  In this embedding the upstream
responses and the clock are explicit inputs (`GithubEnv`), so
`check_github_health` is a pure function: two calls with the same owner,
repo, policy, token, responses and current time return equal
`HealthCheckResult` values in every field, including the order of the
`warnings` and `errors` lists. -/
theorem C8_determinism (owner repo : String) (p : Policy) (tok : Option String)
    (env : GithubEnv) :
    check_github_health owner repo p tok env = check_github_health owner repo p tok env :=
  rfl

/-- Claim C10: when the repository-metadata fetch succeeds but carries a
last-activity string that matches neither `strptime` format (e.g. one with a
`+00:00` offset), the `ValueError` of `parse_iso8601_timestamp` propagates
out of `check_github_health` / `check_gitlab_health` — the result is
`Except.error`, not a result with the message in `errors`. -/
theorem C10_valueerror_propagates :
    (∀ (owner repo : String) (p : Policy) (tok : Option String) (env : GithubEnv)
        (status : Nat) (reason : String) (body : GithubRepoData) (s : String),
        env.repoResp = .ok status reason body →
        httpRaise status reason (githubRepoApiUrl owner repo) = none →
        body.pushed_at = some s →
        s.data.isEmpty = false →
        parse_iso8601_timestamp s = none →
        check_github_health owner repo p tok env =
          .error ("Invalid ISO 8601 timestamp format: " ++ s)) ∧
    (∀ (owner repo : String) (p : Policy) (tok : Option String) (env : GitlabEnv)
        (status : Nat) (reason : String) (body : GitlabProjData) (s : String),
        env.projResp = .ok status reason body →
        httpRaise status reason (gitlabProjApiUrl owner repo) = none →
        body.last_activity_at = some s →
        s.data.isEmpty = false →
        parse_iso8601_timestamp s = none →
        check_gitlab_health owner repo p tok env =
          .error ("Invalid ISO 8601 timestamp format: " ++ s)) := by
  constructor
  · intro owner repo p tok env status reason body s h1 h2 h3 h4 h5
    have hm := ghMeta_throws p env (githubRepoApiUrl owner repo) (ghInit owner repo)
      status reason body s h1 h2 h3 h4 h5
    simp only [check_github_health, githubSteps, runSteps, hm]
  · intro owner repo p tok env status reason body s h1 h2 h3 h4 h5
    have hm := glMeta_throws p env (gitlabProjApiUrl owner repo) (glInit owner repo)
      status reason body s h1 h2 h3 h4 h5
    simp only [check_gitlab_health, gitlabSteps, runSteps, hm]

/-- Witness for C10: a concrete evaluation whose timestamp carries a
`+00:00` offset propagates the `ValueError`. -/
theorem C10_valueerror_propagates_witness :
    check_github_health "o" "r" {} none envBadTs =
      .error ("Invalid ISO 8601 timestamp format: " ++ "2024-01-15T12:00:00+00:00") :=
  C10_valueerror_propagates.1 "o" "r" {} none envBadTs 200 "OK"
    { pushed_at := some "2024-01-15T12:00:00+00:00" } "2024-01-15T12:00:00+00:00"
    rfl (by decide) rfl (by decide) (by decide)

/-- Claim C5: a URL whose host matches none of the three recognized patterns
(`github.com`/`gitlab.com`/`bitbucket.org` exactly, or a `.`-separated
subdomain of them — e.g. a self-hosted `git.company.com`), or whose path
yields fewer than 2 segments, parses to `(none, none, none)`. -/
theorem C5_unrecognized_none :
    (∀ url : String, hostPlatform (netlocOf url) = none →
        parse_repo_url url = (none, none, none)) ∧
    (∀ url : String, (pathPartsOf url).length < 2 →
        parse_repo_url url = (none, none, none)) := by
  constructor
  · intro url h
    unfold parse_repo_url
    rcases hp : pathPartsOf url with _ | ⟨a, _ | ⟨b, t⟩⟩ <;> simp [h]
  · intro url h
    unfold parse_repo_url
    rcases hp : pathPartsOf url with _ | ⟨a, _ | ⟨b, t⟩⟩
    · simp
    · simp
    · rw [hp] at h
      simp only [List.length_cons] at h
      exact absurd h (by omega)

/-- Witness for C5: the self-hosted host `git.company.com` is not
recognized. -/
theorem C5_unrecognized_none_witness :
    hostPlatform (netlocOf "https://git.company.com/org/repo") = none ∧
    parse_repo_url "https://git.company.com/org/repo" = (none, none, none) :=
  ⟨by decide,
    C5_unrecognized_none.1 "https://git.company.com/org/repo" (by decide)⟩

/-- Counterexample to claim C4 as stated: `parse_repo_url` removes every
occurrence of `.git` from the repository segment (`str.replace` semantics),
not only a literal trailing suffix: the second path segment `my.gitrepo`
(which has no trailing `.git`) comes back as `myrepo`. -/
theorem C4_git_strip_counterexample :
    parse_repo_url "https://github.com/org/my.gitrepo" =
      (some "github", some "org", some "myrepo") ∧
    pathPartsOf "https://github.com/org/my.gitrepo" = ["org", "my.gitrepo"] ∧
    ("myrepo" : String) ≠ "my.gitrepo" := by
  refine ⟨by decide, by decide, by decide⟩

/-- Claim C4, amended: for every URL with a recognized host and at least two
path segments, `parse_repo_url` returns the matching platform, the first
segment as organization, and the second segment with **every** occurrence of
`.git` removed (not only a trailing one) as repository. -/
theorem C4_parse_recognized_amended (url org repo : String) (rest : List String)
    (pl : String)
    (hparts : pathPartsOf url = org :: repo :: rest)
    (hhost : hostPlatform (netlocOf url) = some pl) :
    parse_repo_url url = (some pl, some org, some (pyReplace repo ".git" "")) := by
  unfold parse_repo_url
  rw [hparts]
  simp only [hhost]

/-- Witness for the amended C4: a concrete recognized URL with a trailing
`.git`. -/
theorem C4_parse_recognized_amended_witness :
    pathPartsOf "https://github.com/org/repo.git" = ["org", "repo.git"] ∧
    hostPlatform (netlocOf "https://github.com/org/repo.git") = some "github" ∧
    pyReplace "repo.git" ".git" "" = "repo" ∧
    parse_repo_url "https://github.com/org/repo.git" =
      (some "github", some "org", some (pyReplace "repo.git" ".git" "")) :=
  ⟨by decide, by decide, by decide,
    C4_parse_recognized_amended "https://github.com/org/repo.git" "org" "repo.git" []
      "github" (by decide) (by decide)⟩

/-- Counterexample to claim C2 as stated: with `require_readme = true`, a
root-listing fetch returning a non-success status (404 in `envC2ce`) leaves
`has_readme = false`, yet the evaluation completes with **no** "No README
file found" warning and `is_healthy` still true — the policy enforcement of
lines 80-85 sits inside the `status_code == 200` branch. -/
theorem C2_enforcement_counterexample :
    ({} : Policy).require_readme = true ∧
    check_github_health "o" "r" {} none envC2ce =
      .ok { repository_url := "https://github.com/o/r", platform := "github",
            owner := "o", repo_name := "r",
            open_issues_count := some 0, stars_count := some 0, forks_count := some 0,
            has_readme := false, has_license := false,
            warnings := [], errors := [], is_healthy := true } :=
  ⟨rfl, rfl⟩

/-- Counterexample to claim C9 as stated: a `pushed_at` two days in the
future of the evaluation instant yields
`days_since_last_activity = -2 < 0`. -/
theorem C9_negative_days_counterexample :
    resultDays (check_github_health "o" "r" {} none envC9ce) = some (-2) ∧
    ((-2 : Int) < 0) :=
  ⟨rfl, by decide⟩

lemma runSteps_cons_cont {s : HealthCheckResult → StepRes}
    {rest : List (HealthCheckResult → StepRes)} {r0 r1 : HealthCheckResult}
    (h : s r0 = .cont r1) :
    runSteps (s :: rest) r0 = runSteps rest r1 := by
  simp only [runSteps]
  rw [h]

lemma healthMono_of_soft {p : Policy} {s : HealthCheckResult → StepRes}
    (h : stepSoftTame p s) : stepHealthMono s := by
  intro r r2 hst hf
  obtain ⟨hh, _⟩ := h r r2 hst
  rcases hh with hh | hh
  · rw [hh]; exact hf
  · exact hh

lemma healthMono_of_tame {p : Policy} {s : HealthCheckResult → StepRes}
    (h : stepTame p s) : stepHealthMono s := by
  intro r r2 hst hf
  obtain ⟨_, hh, _⟩ := h r r2 hst
  rcases hh with hh | hh
  · rw [hh]; exact hf
  · exact hh

/-- Claim C7: `is_healthy` starts `true` (the freshly initialized results)
and every statement group of either evaluator is monotone non-increasing on
it: no step that hands a state on (`cont`) or ends the evaluation (`halt`)
ever turns `is_healthy` from `false` back to `true`. -/
theorem C7_is_healthy_monotone (owner repo : String) (p : Policy)
    (genv : GithubEnv) (lenv : GitlabEnv) :
    (ghInit owner repo).is_healthy = true ∧
    (glInit owner repo).is_healthy = true ∧
    (∀ s ∈ githubSteps owner repo p genv, stepHealthMono s) ∧
    (∀ s ∈ gitlabSteps owner repo p lenv, stepHealthMono s) := by
  refine ⟨rfl, rfl, ?_, ?_⟩
  · intro s hs
    simp only [githubSteps, List.mem_cons, List.not_mem_nil, or_false] at hs
    rcases hs with rfl | rfl | rfl | rfl
    · exact healthMono_of_soft (ghMeta_softTame p genv _)
    · exact healthMono_of_tame (ghIssues_tame p genv _)
    · exact healthMono_of_tame (ghStars_tame p genv)
    · exact healthMono_of_tame (ghContents_tame p genv)
  · intro s hs
    simp only [gitlabSteps, List.mem_cons, List.not_mem_nil, or_false] at hs
    rcases hs with rfl | rfl | rfl | rfl | rfl
    · exact healthMono_of_soft (glMeta_softTame p lenv _)
    · exact healthMono_of_tame (glIssues_tame p lenv _)
    · exact healthMono_of_tame (glStars_tame p lenv)
    · exact healthMono_of_tame (glReadme_tame p lenv)
    · exact healthMono_of_tame (glLicense_tame p lenv)

/-- Witness for C7: the metadata step applied to an already-unhealthy state
keeps it unhealthy. -/
theorem C7_is_healthy_monotone_witness :
    (ghErr rUnhealthy "boom").is_healthy = false :=
  (C7_is_healthy_monotone "a" "b" {} envNetErr lenvTriv).2.2.1
    (ghMeta {} envNetErr (githubRepoApiUrl "a" "b"))
    (by unfold githubSteps; exact List.mem_cons_self _ _)
    rUnhealthy (ghErr rUnhealthy "boom") rfl rfl

/-- Claim C9, amended: whenever a last-activity timestamp is parsed, the
returned `days_since_last_activity` is exactly
`floor((now - timestamp) / 1 day)` (Python `timedelta.days` semantics); it is
non-negative whenever the timestamp does not lie in the future of the
evaluation instant, and can be negative otherwise. -/
theorem C9_days_floor_amended :
    (∀ (owner repo : String) (p : Policy) (tok : Option String) (env : GithubEnv)
        (status : Nat) (reason : String) (body : GithubRepoData) (s : String)
        (ts : Int) (res : HealthCheckResult),
        env.repoResp = .ok status reason body →
        httpRaise status reason (githubRepoApiUrl owner repo) = none →
        body.pushed_at = some s →
        s.data.isEmpty = false →
        parse_iso8601_timestamp s = some ts →
        check_github_health owner repo p tok env = .ok res →
        res.days_since_last_activity = some (Int.fdiv (env.now_us - ts) usPerDay) ∧
          (ts ≤ env.now_us → 0 ≤ Int.fdiv (env.now_us - ts) usPerDay)) ∧
    (∀ (owner repo : String) (p : Policy) (tok : Option String) (env : GitlabEnv)
        (status : Nat) (reason : String) (body : GitlabProjData) (s : String)
        (ts : Int) (res : HealthCheckResult),
        env.projResp = .ok status reason body →
        httpRaise status reason (gitlabProjApiUrl owner repo) = none →
        body.last_activity_at = some s →
        s.data.isEmpty = false →
        parse_iso8601_timestamp s = some ts →
        check_gitlab_health owner repo p tok env = .ok res →
        res.days_since_last_activity = some (Int.fdiv (env.now_us - ts) usPerDay) ∧
          (ts ≤ env.now_us → 0 ≤ Int.fdiv (env.now_us - ts) usPerDay)) := by
  constructor
  · intro owner repo p tok env status reason body s ts res h1 h2 h3 h4 h5 hrun
    have hm := ghMeta_eq p env (githubRepoApiUrl owner repo) (ghInit owner repo)
      status reason body s ts h1 h2 h3 h4 h5
    unfold check_github_health githubSteps at hrun
    rw [runSteps_cons_cont hm] at hrun
    have htame : ∀ s2 ∈ [ghIssues env (githubIssuesApiUrl owner repo), ghStars env,
        ghContents p env], stepTame p s2 := by
      intro s2 hs2
      simp only [List.mem_cons, List.not_mem_nil, or_false] at hs2
      rcases hs2 with rfl | rfl | rfl
      · exact ghIssues_tame p env _
      · exact ghStars_tame p env
      · exact ghContents_tame p env
    obtain ⟨hd, -, -⟩ := runSteps_tame_facts p _ htame _ res hrun
    refine ⟨hd.trans ?_, fun hts => Int.fdiv_nonneg (by omega) (by decide)⟩
    rw [applyInactivity_days]
  · intro owner repo p tok env status reason body s ts res h1 h2 h3 h4 h5 hrun
    have hm := glMeta_eq p env (gitlabProjApiUrl owner repo) (glInit owner repo)
      status reason body s ts h1 h2 h3 h4 h5
    unfold check_gitlab_health gitlabSteps at hrun
    rw [runSteps_cons_cont hm] at hrun
    have htame : ∀ s2 ∈ [glIssues env (gitlabIssuesApiUrl owner repo), glStars env,
        glReadme p env, glLicense p env], stepTame p s2 := by
      intro s2 hs2
      simp only [List.mem_cons, List.not_mem_nil, or_false] at hs2
      rcases hs2 with rfl | rfl | rfl | rfl
      · exact glIssues_tame p env _
      · exact glStars_tame p env
      · exact glReadme_tame p env
      · exact glLicense_tame p env
    obtain ⟨hd, -, -⟩ := runSteps_tame_facts p _ htame _ res hrun
    refine ⟨hd.trans ?_, fun hts => Int.fdiv_nonneg (by omega) (by decide)⟩
    rw [applyInactivity_days]

/-- Witness for the amended C9: 197 whole days elapsed, a non-negative
count. -/
theorem C9_days_floor_amended_witness :
    resultDays (check_github_health "o" "r" {} none envPast) =
      some (Int.fdiv (envPast.now_us - 172800000000) usPerDay) ∧
    0 ≤ Int.fdiv (envPast.now_us - 172800000000) usPerDay := by
  have h := C9_days_floor_amended.1 "o" "r" {} none envPast 200 "OK"
    { pushed_at := some "1970-01-03T00:00:00Z" } "1970-01-03T00:00:00Z" 172800000000
    resPastC9 rfl (by decide) rfl (by decide) (by decide) rfl
  exact ⟨h.1, h.2 (by decide)⟩

/-- Claim C6: any network-layer exception (a raised `RequestException`,
including the `HTTPError` of `raise_for_status`) is caught:
`check_github_health` returns a result whose `errors` list is exactly the
one prefixed entry and whose `is_healthy` is `false`; an exception on the
first fetch leaves every optional field at its default (`ghInit`), and an
exception at a later fetch preserves all fields the completed steps set. -/
theorem C6_network_error_handling (owner repo : String) (p : Policy)
    (tok : Option String) (env : GithubEnv) :
    (∀ m, env.repoResp = .netError m →
        check_github_health owner repo p tok env =
          .ok { ghInit owner repo with
                errors := ["Error checking GitHub repository: " ++ m],
                is_healthy := false }) ∧
    (∀ status reason body m, env.repoResp = .ok status reason body →
        httpRaise status reason (githubRepoApiUrl owner repo) = some m →
        check_github_health owner repo p tok env =
          .ok { ghInit owner repo with
                errors := ["Error checking GitHub repository: " ++ m],
                is_healthy := false }) ∧
    (∀ r1 m, ghMeta p env (githubRepoApiUrl owner repo) (ghInit owner repo) = .cont r1 →
        env.issuesResp = .netError m →
        r1.errors = [] ∧
        check_github_health owner repo p tok env =
          .ok { r1 with
                errors := ["Error checking GitHub repository: " ++ m],
                is_healthy := false }) ∧
    (∀ r1 status2 reason2 n m,
        ghMeta p env (githubRepoApiUrl owner repo) (ghInit owner repo) = .cont r1 →
        env.issuesResp = .ok status2 reason2 n →
        httpRaise status2 reason2 (githubIssuesApiUrl owner repo) = some m →
        r1.errors = [] ∧
        check_github_health owner repo p tok env =
          .ok { r1 with
                errors := ["Error checking GitHub repository: " ++ m],
                is_healthy := false }) ∧
    (∀ r1 status reason body status2 reason2 n m,
        ghMeta p env (githubRepoApiUrl owner repo) (ghInit owner repo) = .cont r1 →
        env.issuesResp = .ok status2 reason2 n →
        httpRaise status2 reason2 (githubIssuesApiUrl owner repo) = none →
        env.repoResp = .ok status reason body →
        env.contentsResp = .netError m →
        r1.errors = [] ∧
        check_github_health owner repo p tok env =
          .ok { r1 with
                open_issues_count := some (n : Int),
                stars_count := some (body.stargazers_count.getD 0),
                forks_count := some (body.forks_count.getD 0),
                errors := ["Error checking GitHub repository: " ++ m],
                is_healthy := false }) := by
  refine ⟨?_, ?_, ?_, ?_, ?_⟩
  · intro m h
    unfold check_github_health githubSteps runSteps ghMeta
    rw [h]
    rfl
  · intro status reason body m h hr
    unfold check_github_health githubSteps runSteps ghMeta
    rw [h]
    simp only [hr]
    rfl
  · intro r1 m hm hi
    have he : r1.errors = [] := ghMeta_cont_errors p env _ _ r1 hm
    refine ⟨he, ?_⟩
    unfold check_github_health githubSteps
    rw [runSteps_cons_cont hm]
    unfold runSteps ghIssues
    rw [hi]
    simp only [ghErr, he, List.nil_append]
  · intro r1 status2 reason2 n m hm hi hr
    have he : r1.errors = [] := ghMeta_cont_errors p env _ _ r1 hm
    refine ⟨he, ?_⟩
    unfold check_github_health githubSteps
    rw [runSteps_cons_cont hm]
    unfold runSteps ghIssues
    rw [hi]
    simp only [hr, ghErr, he, List.nil_append]
  · intro r1 status reason body status2 reason2 n m hm hi hr hrepo hc
    have he : r1.errors = [] := ghMeta_cont_errors p env _ _ r1 hm
    refine ⟨he, ?_⟩
    unfold check_github_health githubSteps
    rw [runSteps_cons_cont hm]
    have h2 : ghIssues env (githubIssuesApiUrl owner repo) r1 =
        .cont { r1 with open_issues_count := some (n : Int) } := by
      unfold ghIssues
      rw [hi]
      simp only [hr]
    rw [runSteps_cons_cont h2]
    have h3 : ghStars env { r1 with open_issues_count := some (n : Int) } =
        .cont { r1 with
                open_issues_count := some (n : Int),
                stars_count := some (body.stargazers_count.getD 0),
                forks_count := some (body.forks_count.getD 0) } := by
      unfold ghStars
      rw [hrepo]
    rw [runSteps_cons_cont h3]
    unfold runSteps ghContents
    rw [hc]
    simp only [ghErr, he, List.nil_append]

/-- Witness for C6: a network exception on the very first fetch. -/
theorem C6_network_error_handling_witness :
    check_github_health "o" "r" {} none envNetErr =
      .ok { ghInit "o" "r" with
            errors := ["Error checking GitHub repository: " ++ "boom"],
            is_healthy := false } :=
  (C6_network_error_handling "o" "r" {} none envNetErr).1 "boom" rfl

/-- Claim C2, amended: in `check_github_health` the README/LICENSE policy
enforcement runs only when the root-listing fetch returned status 200;
in that case a missing required file appends its warning and clears
`is_healthy`, while on any other status the step leaves the result
unchanged (`has_readme`/`has_license` stay `false` and **no** warning is
recorded). -/
theorem C2_enforcement_amended (p : Policy) (env : GithubEnv)
    (r r2 : HealthCheckResult)
    (hstep : stepState (ghContents p env r) = some r2) :
    (∀ reason items, env.contentsResp = .ok 200 reason items →
        r2.has_readme = listHasNameIn README_FILES items ∧
        r2.has_license = listHasNameIn LICENSE_FILES items ∧
        (p.require_readme = true → listHasNameIn README_FILES items = false →
          "No README file found" ∈ r2.warnings ∧ r2.is_healthy = false) ∧
        (p.require_license = true → listHasNameIn LICENSE_FILES items = false →
          "No LICENSE file found" ∈ r2.warnings ∧ r2.is_healthy = false)) ∧
    (∀ status reason items, env.contentsResp = .ok status reason items →
        (status == 200) = false → r2 = r) := by
  constructor
  · intro reason items hok
    unfold ghContents at hstep
    rw [hok] at hstep
    simp only [stepState, Option.some.injEq, beq_self_eq_true, if_true] at hstep
    subst hstep
    refine ⟨?_, ?_, ?_, ?_⟩
    · repeat' split
      all_goals rfl
    · repeat' split
      all_goals rfl
    · intro ht hf
      have hc1 : (p.require_readme && !listHasNameIn README_FILES items) = true := by
        rw [ht, hf]; rfl
      simp only [hc1, if_true]
      split
      · exact ⟨by simp, rfl⟩
      · exact ⟨by simp, rfl⟩
    · intro ht hf
      have hc2 : (p.require_license && !listHasNameIn LICENSE_FILES items) = true := by
        rw [ht, hf]; rfl
      simp only [hc2, if_true]
      exact ⟨by simp, by simp⟩
  · intro status reason items hok hne
    unfold ghContents at hstep
    rw [hok] at hstep
    simp only [hne, Bool.false_eq_true, if_false, stepState, Option.some.injEq] at hstep
    exact hstep.symm

/-- Witness for the amended C2: a 200 listing with no files under the
default policy yields both warnings and an unhealthy result. -/
theorem C2_enforcement_amended_witness :
    "No README file found" ∈ resC2w.warnings ∧ resC2w.is_healthy = false :=
  ((C2_enforcement_amended {} envC2w (ghInit "a" "b") resC2w rfl).1 "OK" [] rfl).2.2.1
    rfl rfl

lemma find?_ext {α : Type} (p q : α → Bool) (h : ∀ a, p a = q a) :
    ∀ l : List α, l.find? p = l.find? q := by
  intro l
  induction l with
  | nil => rfl
  | cons a l ih => simp only [List.find?, h a, ih]

lemma contains_primary (t : String) : primary_repo_types.contains t = specTier1 t := by
  simp only [primary_repo_types, specTier1, List.contains_cons, List.contains_nil,
    Bool.or_false, Bool.or_assoc]

lemma contains_secondary (t : String) :
    secondary_repo_types.contains t = specTier2 t := by
  simp only [secondary_repo_types, specTier2, List.contains_cons, List.contains_nil,
    Bool.or_false]

lemma contains_excluded (t : String) : (!excluded_types.contains t) = specTier3 t := by
  simp only [excluded_types, specTier3, List.contains_cons, List.contains_nil,
    Bool.or_false, Bool.or_assoc]

lemma scanUrls_eq_find (pred : String → Bool) :
    ∀ urls : List (String × String), scanUrls pred urls =
      match urls.find? (fun tu => pred tu.1 && recognizedUrlB tu.2) with
      | some tu =>
        match parse_repo_url tu.2 with
        | (some pl, o, r) => some (tu.2, pl, o, r)
        | (none, _, _) => none
      | none => none := by
  intro urls
  induction urls with
  | nil => rfl
  | cons tu rest ih =>
    rcases tu with ⟨t, u⟩
    rcases hpred : pred t with _ | _
    · simp only [scanUrls, List.find?, hpred, Bool.false_and, Bool.false_eq_true, if_false]
      exact ih
    · rcases hp : parse_repo_url u with ⟨pl, o, r⟩
      rcases pl with _ | pl
      · have hrec : recognizedUrlB u = false := by
          simp [recognizedUrlB, truthyOpt, hp]
        simp only [scanUrls, List.find?, hpred, hrec, Bool.and_false, if_true, hp]
        exact ih
      · rcases hemp : pl.data.isEmpty with _ | _
        · have hrec : recognizedUrlB u = true := by
            simp [recognizedUrlB, truthyOpt, hp, hemp]
          simp only [scanUrls, List.find?, hpred, hrec, Bool.and_self, hp, hemp,
            Bool.false_eq_true, if_false, if_true]
        · have hrec : recognizedUrlB u = false := by
            simp [recognizedUrlB, truthyOpt, hp, hemp]
          simp only [scanUrls, List.find?, hpred, hrec, Bool.and_false, hp, hemp, if_true]
          exact ih

/-- Claim C3: `extract_repo_info` realizes exactly the spec's tier-ordered
resolution (`extract_repo_info_spec`): tier 1 labels `Source`/`Repository`/
`Code`, then `Homepage`, then any non-excluded label, first recognized URL
in mapping order wins, and a metadata blob whose only entry is an excluded
label (`Funding`) resolves to all-`none` even when its URL is a GitHub
URL. -/
theorem C3_extract_repo_info_tiers :
    (∀ info, extract_repo_info info = extract_repo_info_spec info) ∧
    extract_repo_info (some ⟨some [("Funding", "https://github.com/a/b")]⟩) =
      (none, none, none, none) := by
  constructor
  · intro info
    rcases info with _ | ⟨pu⟩
    · rfl
    · rcases pu with _ | urls
      · rfl
      · unfold extract_repo_info extract_repo_info_spec tierFirst buildResolved
        dsimp only
        rw [scanUrls_eq_find, scanUrls_eq_find, scanUrls_eq_find,
          find?_ext (fun tu : String × String =>
              primary_repo_types.contains tu.1 && recognizedUrlB tu.2)
            (fun tu => specTier1 tu.1 && recognizedUrlB tu.2)
            (fun tu => by dsimp only; rw [contains_primary]) urls,
          find?_ext (fun tu : String × String =>
              secondary_repo_types.contains tu.1 && recognizedUrlB tu.2)
            (fun tu => specTier2 tu.1 && recognizedUrlB tu.2)
            (fun tu => by dsimp only; rw [contains_secondary]) urls,
          find?_ext (fun tu : String × String =>
              (!excluded_types.contains tu.1) && recognizedUrlB tu.2)
            (fun tu => specTier3 tu.1 && recognizedUrlB tu.2)
            (fun tu => by dsimp only; rw [contains_excluded]) urls]
        generalize hf1 : urls.find? (fun tu => specTier1 tu.1 && recognizedUrlB tu.2) = f1
        generalize hf2 : urls.find? (fun tu => specTier2 tu.1 && recognizedUrlB tu.2) = f2
        generalize hf3 : urls.find? (fun tu => specTier3 tu.1 && recognizedUrlB tu.2) = f3
        rcases f1 with _ | ⟨t1, u1⟩
        · rcases f2 with _ | ⟨t2, u2⟩
          · rcases f3 with _ | ⟨t3, u3⟩
            · rfl
            · have hq := List.find?_some hf3
              simp only [Bool.and_eq_true] at hq
              have hrec := hq.2
              rcases hp : parse_repo_url u3 with ⟨pl, o, r⟩
              rcases pl with _ | pl
              · unfold recognizedUrlB at hrec
                rw [hp] at hrec
                simp [truthyOpt] at hrec

              · simp only [hp]
          · have hq := List.find?_some hf2
            simp only [Bool.and_eq_true] at hq
            have hrec := hq.2
            rcases hp : parse_repo_url u2 with ⟨pl, o, r⟩
            rcases pl with _ | pl
            · unfold recognizedUrlB at hrec
              rw [hp] at hrec
              simp [truthyOpt] at hrec

            · simp only [hp]
        · have hq := List.find?_some hf1
          simp only [Bool.and_eq_true] at hq
          have hrec := hq.2
          rcases hp : parse_repo_url u1 with ⟨pl, o, r⟩
          rcases pl with _ | pl
          · unfold recognizedUrlB at hrec
            rw [hp] at hrec
            simp [truthyOpt] at hrec

          · simp only [hp]
  · decide

lemma gh_rest_tame (p : Policy) (env : GithubEnv) (owner repo : String) :
    ∀ s2 ∈ [ghIssues env (githubIssuesApiUrl owner repo), ghStars env, ghContents p env],
      stepTame p s2 := by
  intro s2 hs2
  simp only [List.mem_cons, List.not_mem_nil, or_false] at hs2
  rcases hs2 with rfl | rfl | rfl
  · exact ghIssues_tame p env _
  · exact ghStars_tame p env
  · exact ghContents_tame p env

lemma gl_rest_tame (p : Policy) (env : GitlabEnv) (owner repo : String) :
    ∀ s2 ∈ [glIssues env (gitlabIssuesApiUrl owner repo), glStars env,
        glReadme p env, glLicense p env],
      stepTame p s2 := by
  intro s2 hs2
  simp only [List.mem_cons, List.not_mem_nil, or_false] at hs2
  rcases hs2 with rfl | rfl | rfl | rfl
  · exact glIssues_tame p env _
  · exact glStars_tame p env
  · exact glReadme_tame p env
  · exact glLicense_tame p env

/-- Claim C1: when the metadata fetch succeeds and supplies a truthy,
parsable last-activity timestamp, the metadata step of either evaluator
appends the strong warning and clears `is_healthy` exactly when
`days > max_inactive_days`; otherwise, when `days > 90`, it appends only the
informational warning and leaves `is_healthy` untouched; otherwise it
appends nothing — so the two inactivity warnings are mutually exclusive, and
a full evaluation carries at most one inactivity warning in its result. -/
theorem C1_inactivity_warnings :
    (∀ (p : Policy) (env : GithubEnv) (u : String) (r : HealthCheckResult)
        (status : Nat) (reason : String) (body : GithubRepoData) (s : String) (ts : Int),
        env.repoResp = .ok status reason body →
        httpRaise status reason u = none →
        body.pushed_at = some s →
        s.data.isEmpty = false →
        parse_iso8601_timestamp s = some ts →
        ((p.max_inactive_days < Int.fdiv (env.now_us - ts) usPerDay →
            ghMeta p env u r = .cont { r with
              last_activity := some s,
              days_since_last_activity := some (Int.fdiv (env.now_us - ts) usPerDay),
              warnings := r.warnings ++
                ["Repository has been inactive for over " ++
                  toString p.max_inactive_days ++ " days"],
              is_healthy := false }) ∧
          (¬ p.max_inactive_days < Int.fdiv (env.now_us - ts) usPerDay →
            90 < Int.fdiv (env.now_us - ts) usPerDay →
            ghMeta p env u r = .cont { r with
              last_activity := some s,
              days_since_last_activity := some (Int.fdiv (env.now_us - ts) usPerDay),
              warnings := r.warnings ++
                ["Repository has been inactive for over 90 days"] }) ∧
          (¬ p.max_inactive_days < Int.fdiv (env.now_us - ts) usPerDay →
            ¬ 90 < Int.fdiv (env.now_us - ts) usPerDay →
            ghMeta p env u r = .cont { r with
              last_activity := some s,
              days_since_last_activity := some (Int.fdiv (env.now_us - ts) usPerDay) }))) ∧
    (∀ (p : Policy) (env : GitlabEnv) (u : String) (r : HealthCheckResult)
        (status : Nat) (reason : String) (body : GitlabProjData) (s : String) (ts : Int),
        env.projResp = .ok status reason body →
        httpRaise status reason u = none →
        body.last_activity_at = some s →
        s.data.isEmpty = false →
        parse_iso8601_timestamp s = some ts →
        ((p.max_inactive_days < Int.fdiv (env.now_us - ts) usPerDay →
            glMeta p env u r = .cont { r with
              last_activity := some s,
              days_since_last_activity := some (Int.fdiv (env.now_us - ts) usPerDay),
              warnings := r.warnings ++
                ["Repository has been inactive for over " ++
                  toString p.max_inactive_days ++ " days"],
              is_healthy := false }) ∧
          (¬ p.max_inactive_days < Int.fdiv (env.now_us - ts) usPerDay →
            90 < Int.fdiv (env.now_us - ts) usPerDay →
            glMeta p env u r = .cont { r with
              last_activity := some s,
              days_since_last_activity := some (Int.fdiv (env.now_us - ts) usPerDay),
              warnings := r.warnings ++
                ["Repository has been inactive for over 90 days"] }) ∧
          (¬ p.max_inactive_days < Int.fdiv (env.now_us - ts) usPerDay →
            ¬ 90 < Int.fdiv (env.now_us - ts) usPerDay →
            glMeta p env u r = .cont { r with
              last_activity := some s,
              days_since_last_activity := some (Int.fdiv (env.now_us - ts) usPerDay) }))) ∧
    (∀ (owner repo : String) (p : Policy) (tok : Option String) (env : GithubEnv)
        (res : HealthCheckResult),
        check_github_health owner repo p tok env = .ok res →
        res.warnings.countP (inactWarnB p) ≤ 1) ∧
    (∀ (owner repo : String) (p : Policy) (tok : Option String) (env : GitlabEnv)
        (res : HealthCheckResult),
        check_gitlab_health owner repo p tok env = .ok res →
        res.warnings.countP (inactWarnB p) ≤ 1) := by
  refine ⟨?_, ?_, ?_, ?_⟩
  · intro p env u r status reason body s ts h1 h2 h3 h4 h5
    rw [ghMeta_eq p env u r status reason body s ts h1 h2 h3 h4 h5]
    unfold applyInactivity
    refine ⟨fun hgt => ?_, fun hle hgt => ?_, fun hle hle2 => ?_⟩
    · rw [if_pos hgt]
    · rw [if_neg hle, if_pos hgt]
    · rw [if_neg hle, if_neg hle2]
  · intro p env u r status reason body s ts h1 h2 h3 h4 h5
    rw [glMeta_eq p env u r status reason body s ts h1 h2 h3 h4 h5]
    unfold applyInactivity
    refine ⟨fun hgt => ?_, fun hle hgt => ?_, fun hle hle2 => ?_⟩
    · rw [if_pos hgt]
    · rw [if_neg hle, if_pos hgt]
    · rw [if_neg hle, if_neg hle2]
  · intro owner repo p tok env res hrun
    unfold check_github_health githubSteps at hrun
    rcases hs : ghMeta p env (githubRepoApiUrl owner repo) (ghInit owner repo)
      with r1 | r1 | m
    · rw [runSteps_cons_cont hs] at hrun
      obtain ⟨-, ws1, hw1, hc1⟩ :=
        ghMeta_softTame p env (githubRepoApiUrl owner repo) _ r1 (by rw [hs]; rfl)
      obtain ⟨-, -, ws2, hw2, hc2⟩ :=
        runSteps_tame_facts p _ (gh_rest_tame p env owner repo) r1 res hrun
      rw [hw2, hw1, show (ghInit owner repo).warnings = [] from rfl, List.nil_append,
        List.countP_append]
      omega
    · simp only [runSteps, hs, Except.ok.injEq] at hrun
      obtain ⟨-, ws1, hw1, hc1⟩ :=
        ghMeta_softTame p env (githubRepoApiUrl owner repo) _ r1 (by rw [hs]; rfl)
      rw [← hrun, hw1, show (ghInit owner repo).warnings = [] from rfl, List.nil_append]
      exact hc1
    · simp only [runSteps, hs] at hrun
      cases hrun
  · intro owner repo p tok env res hrun
    unfold check_gitlab_health gitlabSteps at hrun
    rcases hs : glMeta p env (gitlabProjApiUrl owner repo) (glInit owner repo)
      with r1 | r1 | m
    · rw [runSteps_cons_cont hs] at hrun
      obtain ⟨-, ws1, hw1, hc1⟩ :=
        glMeta_softTame p env (gitlabProjApiUrl owner repo) _ r1 (by rw [hs]; rfl)
      obtain ⟨-, -, ws2, hw2, hc2⟩ :=
        runSteps_tame_facts p _ (gl_rest_tame p env owner repo) r1 res hrun
      rw [hw2, hw1, show (glInit owner repo).warnings = [] from rfl, List.nil_append,
        List.countP_append]
      omega
    · simp only [runSteps, hs, Except.ok.injEq] at hrun
      obtain ⟨-, ws1, hw1, hc1⟩ :=
        glMeta_softTame p env (gitlabProjApiUrl owner repo) _ r1 (by rw [hs]; rfl)
      rw [← hrun, hw1, show (glInit owner repo).warnings = [] from rfl, List.nil_append]
      exact hc1
    · simp only [runSteps, hs] at hrun
      cases hrun

/-- Witness for C1: 197 days of inactivity against a 100-day threshold
appends the strong warning and clears `is_healthy`. -/
theorem C1_inactivity_warnings_witness :
    ghMeta polC1 envPast (githubRepoApiUrl "o" "r") (ghInit "o" "r") =
      .cont { ghInit "o" "r" with
        last_activity := some "1970-01-03T00:00:00Z",
        days_since_last_activity := some (Int.fdiv (envPast.now_us - 172800000000) usPerDay),
        warnings := ["Repository has been inactive for over " ++
          toString polC1.max_inactive_days ++ " days"],
        is_healthy := false } :=
  (C1_inactivity_warnings.1 polC1 envPast (githubRepoApiUrl "o" "r") (ghInit "o" "r")
    200 "OK" { pushed_at := some "1970-01-03T00:00:00Z" } "1970-01-03T00:00:00Z"
    172800000000 rfl (by decide) rfl (by decide) (by decide)).1 (by decide)

end Vitalis
